import Mathlib

/-!
Shallow embedding of the todo/user service layer of the `vib3` repository
(`src/todo_service/services.py`, `src/todo_service/repository.py`,
`src/todo_service/db.py`), together with theorems settling the frozen
claims about it.

Modelling conventions:
* the SQLite store becomes an explicit `DB` record holding the `users` and
  `todos` tables as lists in insertion order (autoincrement primary keys,
  so insertion order is ascending id order) plus the next autoincrement
  ids;
* `datetime.now().isoformat(timespec="seconds")` becomes an explicit
  `now : String` argument threaded into every operation that may stamp a
  completion timestamp;
* Python `None` / present-vs-absent keyword arguments become `Option`;
  the `NO_UPDATE` sentinel of `repository.py` becomes an outer `Option`
  layer (`none` = field not part of the update, `some v` = set to `v`,
  where `v` itself is an `Option` for nullable columns);
* service failures (`NotFoundError`, `PermissionDeniedError`,
  `ValidationError`) become an `Err` sum type and `Except Err`; the
  unhandled Python `NameError` raised by `update_todo_by_teacher`
  (see below) is modelled as a fourth error kind `nameError`.
-/

namespace Vib3

/-- Error taxonomy of `services.py`: `NotFoundError`, `PermissionDeniedError`,
`ValidationError`, plus `nameError` for the unhandled Python `NameError`
raised at `services.py:174` (the name `completed_at` is unbound there). -/
inductive Err where
  | notFound
  | permissionDenied
  | validation
  | nameError
deriving DecidableEq, Repr

/-- User role: the `role` column is constrained to `teacher` or `student`
by the schema in `db.py`. -/
inductive Role where
  | teacher
  | student
deriving DecidableEq, Repr

/-- Row of the `users` table (`repository.py`, dataclass `User`). -/
structure User where
  id : Nat
  name : String
  role : Role
deriving DecidableEq, Repr

/-- Row of the `todos` table (`repository.py`, dataclass `Todo`). -/
structure Todo where
  id : Nat
  title : String
  description : String
  completed : Bool
  owner_id : Nat
  assignee_id : Option Nat
  due_date : Option String
  completed_at : Option String
deriving DecidableEq, Repr

/-- The SQLite database state: both tables in insertion order (ascending
autoincrement id) and the next autoincrement values. -/
structure DB where
  users : List User
  todos : List Todo
  nextUserId : Nat
  nextTodoId : Nat
deriving DecidableEq, Repr

/-! ## Repository layer (`repository.py`) -/

/-- `UserRepository.create`: INSERT with the next autoincrement id and
return the inserted row (the Python builds the returned `User` from
`cursor.lastrowid` and the arguments). -/
def userCreate (db : DB) (name : String) (role : Role) : DB × User :=
  let u : User := ⟨db.nextUserId, name, role⟩
  ({ db with users := db.users ++ [u], nextUserId := db.nextUserId + 1 }, u)

/-- `UserRepository.get`: SELECT by primary key. -/
def userGet (db : DB) (user_id : Nat) : Option User :=
  db.users.find? (fun u => u.id = user_id)

/-- `UserRepository.list`: SELECT ordered by ascending id; rows are stored
in insertion order, which is ascending id order. -/
def usersList (db : DB) : List User :=
  db.users

/-- `TodoRepository.get`: SELECT by primary key. -/
def todoGet (db : DB) (todo_id : Nat) : Option Todo :=
  db.todos.find? (fun t => t.id = todo_id)

/-- `TodoRepository.list(owner_id=..., assignee_id=...)`: each filter, when
present, is a SQL equality (`assignee_id = ?` never matches a NULL
assignee); `ORDER BY id DESC` reverses the ascending storage order. -/
def todoList (db : DB) (owner_id : Option Nat) (assignee_id : Option Nat) :
    List Todo :=
  (db.todos.filter (fun t =>
    (match owner_id with
     | some o => t.owner_id == o
     | none => true) &&
    (match assignee_id with
     | some a => t.assignee_id == some a
     | none => true))).reverse

/-- `TodoRepository.create`: INSERT with the next autoincrement id; the
Python re-reads the row with `self.get(cursor.lastrowid)`, which returns
exactly the inserted row since the autoincrement id is fresh. -/
def todoCreate (db : DB) (title description : String) (completed : Bool)
    (owner_id : Nat) (assignee_id : Option Nat) (due_date : Option String)
    (completed_at : Option String) : DB × Todo :=
  let t : Todo :=
    ⟨db.nextTodoId, title, description, completed, owner_id, assignee_id,
      due_date, completed_at⟩
  ({ db with todos := db.todos ++ [t], nextTodoId := db.nextTodoId + 1 }, t)

/-- Field assignments of one `TodoRepository.update` call: `title`,
`description` and `completed` use Python `None` as the "not part of the
update" marker (outer `Option`), while `assignee_id`, `due_date` and
`completed_at` use the `NO_UPDATE` sentinel (outer `Option`) around a
nullable value (inner `Option`). -/
def applyPatch (t : Todo) (title description : Option String)
    (completed : Option Bool) (assignee_id : Option (Option Nat))
    (due_date : Option (Option String))
    (completed_at : Option (Option String)) : Todo :=
  { t with
    title := title.getD t.title
    description := description.getD t.description
    completed := completed.getD t.completed
    assignee_id := assignee_id.getD t.assignee_id
    due_date := due_date.getD t.due_date
    completed_at := completed_at.getD t.completed_at }

/-- `TodoRepository.update`: a single SQL UPDATE over the rows whose id
matches, then `self.get(todo_id)` re-reads the row (Option, since the id
may not exist). When no field is part of the update the Python skips the
UPDATE and returns `self.get(todo_id)` directly, which coincides with
applying the empty patch. -/
def todoUpdate (db : DB) (todo_id : Nat) (title description : Option String)
    (completed : Option Bool) (assignee_id : Option (Option Nat))
    (due_date : Option (Option String))
    (completed_at : Option (Option String)) : DB × Option Todo :=
  let db' : DB :=
    { db with
      todos := db.todos.map (fun t =>
        if t.id = todo_id then
          applyPatch t title description completed assignee_id due_date
            completed_at
        else t) }
  (db', todoGet db' todo_id)

/-- `TodoRepository.delete`: DELETE by primary key. -/
def todoDelete (db : DB) (todo_id : Nat) : DB :=
  { db with todos := db.todos.filter (fun t => t.id ≠ todo_id) }

/-! ## Due-date normalizer (`services.py`, `normalize_due_date`)

`normalize_due_date` receives whatever the JSON payload held, so its input
is modelled as a small dynamic-value type. -/

/-- Dynamic (JSON-ish) value reaching `normalize_due_date`. -/
inductive PyVal where
  | vNone
  | vStr (s : String)
  | vInt (n : Int)
  | vBool (b : Bool)
  | vList (l : List String)
deriving DecidableEq, Repr

/-- ASCII digit recognition and value, as `date.fromisoformat` parses
the year/month/day fields. -/
def digitVal (c : Char) : Option Nat :=
  if c = '0' then some 0
  else if c = '1' then some 1
  else if c = '2' then some 2
  else if c = '3' then some 3
  else if c = '4' then some 4
  else if c = '5' then some 5
  else if c = '6' then some 6
  else if c = '7' then some 7
  else if c = '8' then some 8
  else if c = '9' then some 9
  else none

/-- Inverse of `digitVal` on 0..9, used to print a decimal digit. -/
def digitChar (n : Nat) : Char :=
  if n = 0 then '0'
  else if n = 1 then '1'
  else if n = 2 then '2'
  else if n = 3 then '3'
  else if n = 4 then '4'
  else if n = 5 then '5'
  else if n = 6 then '6'
  else if n = 7 then '7'
  else if n = 8 then '8'
  else '9'

/-- Gregorian leap-year rule, as `datetime.date` validates the day. -/
def isLeap (y : Nat) : Bool :=
  (y % 4 == 0 && y % 100 != 0) || y % 400 == 0

/-- Number of days in a month, as `datetime.date` validates the day. -/
def daysInMonth (y m : Nat) : Nat :=
  if m = 2 then (if isLeap y then 29 else 28)
  else if m = 4 ∨ m = 6 ∨ m = 9 ∨ m = 11 then 30
  else 31

/-- Character-level parse of `date.fromisoformat` for its documented
`YYYY-MM-DD` form: exactly ten characters, digits in the year/month/day
positions, dashes between them, and a calendar-valid year/month/day
(`datetime.MINYEAR = 1`). -/
def parseList (l : List Char) : Option (Nat × Nat × Nat) :=
  match l with
  | [y1, y2, y3, y4, s1, m1, m2, s2, d1, d2] =>
    if s1 = '-' ∧ s2 = '-' then
      match digitVal y1, digitVal y2, digitVal y3, digitVal y4,
            digitVal m1, digitVal m2, digitVal d1, digitVal d2 with
      | some a1, some a2, some a3, some a4, some b1, some b2, some c1,
        some c2 =>
        if 1 ≤ ((a1 * 10 + a2) * 10 + a3) * 10 + a4 ∧ 1 ≤ b1 * 10 + b2 ∧
            b1 * 10 + b2 ≤ 12 ∧ 1 ≤ c1 * 10 + c2 ∧
            c1 * 10 + c2 ≤
              daysInMonth (((a1 * 10 + a2) * 10 + a3) * 10 + a4)
                (b1 * 10 + b2) then
          some (((a1 * 10 + a2) * 10 + a3) * 10 + a4, b1 * 10 + b2,
            c1 * 10 + c2)
        else none
      | _, _, _, _, _, _, _, _ => none
    else none
  | _ => none

/-- Zero-padded `YYYY-MM-DD` printing, as `date.isoformat()` emits. -/
def formatList (y m d : Nat) : List Char :=
  [digitChar (y / 1000), digitChar (y / 100 % 10), digitChar (y / 10 % 10),
   digitChar (y % 10), '-', digitChar (m / 10), digitChar (m % 10), '-',
   digitChar (d / 10), digitChar (d % 10)]

/-- String-level `date.fromisoformat`. -/
def isoParse (s : String) : Option (Nat × Nat × Nat) :=
  parseList s.data

/-- String-level `date.isoformat`. -/
def isoFormat (y m d : Nat) : String :=
  ⟨formatList y m d⟩

/-- `normalize_due_date` (`services.py:205-214`): `None` or `""` yield
`None`; a non-string fails Validation; a string failing
`date.fromisoformat` fails Validation; otherwise the parsed date is
re-emitted with `date.isoformat()`. -/
def normalize_due_date (value : PyVal) : Except Err (Option String) :=
  if value = .vNone ∨ value = .vStr "" then .ok none
  else
    match value with
    | .vStr s =>
      match isoParse s with
      | none => .error .validation
      | some (y, m, d) => .ok (some (isoFormat y m d))
    | _ => .error .validation

/-! ## Service layer (`services.py`) -/

/-- `_completion_timestamp` (`services.py:201-202`): the current time when
`completed` is true, NULL otherwise; the clock value is the explicit
`now` argument. -/
def completionTimestamp (now : String) (completed : Bool) : Option String :=
  if completed then some now else none

/-- `UserService.list_students`: filter the user listing by role. -/
def list_students (db : DB) : List User :=
  (usersList db).filter (fun u => u.role = .student)

/-- `UserService.get_user`: raises NotFound when the id is absent. -/
def get_user (db : DB) (user_id : Nat) : Except Err User :=
  match userGet db user_id with
  | none => .error .notFound
  | some u => .ok u

/-- `UserService.ensure_teacher`: `get_user`, then PermissionDenied unless
the role is teacher. -/
def ensure_teacher (db : DB) (user_id : Nat) : Except Err User := do
  let u ← get_user db user_id
  if u.role ≠ .teacher then .error .permissionDenied else .ok u

/-- `UserService.ensure_student`: `get_user`, then ValidationError unless
the role is student. -/
def ensure_student (db : DB) (user_id : Nat) : Except Err User := do
  let u ← get_user db user_id
  if u.role ≠ .student then .error .validation else .ok u

/-- `TodoService._get_todo`: raises NotFound when the id is absent. -/
def service_get_todo (db : DB) (todo_id : Nat) : Except Err Todo :=
  match todoGet db todo_id with
  | none => .error .notFound
  | some t => .ok t

/-- `TodoService.verify_teacher_access` (`services.py:134-138`). -/
def verify_teacher_access (db : DB) (todo_id teacher_id : Nat) :
    Except Err Todo := do
  let todo ← service_get_todo db todo_id
  if todo.owner_id ≠ teacher_id then .error .permissionDenied else .ok todo

/-- `TodoService.verify_student_access` (`services.py:140-144`): the SQL
NULL assignee never equals a student id, so an unassigned todo always
takes the PermissionDenied branch. -/
def verify_student_access (db : DB) (todo_id student_id : Nat) :
    Except Err Todo := do
  let todo ← service_get_todo db todo_id
  if todo.assignee_id ≠ some student_id then .error .permissionDenied
  else .ok todo

/-- `TodoService.list_for_teacher`. -/
def list_for_teacher (db : DB) (teacher_id : Nat) :
    Except Err (List Todo) := do
  _ ← ensure_teacher db teacher_id
  .ok (todoList db (some teacher_id) none)

/-- `TodoService.list_for_student`. -/
def list_for_student (db : DB) (student_id : Nat) :
    Except Err (List Todo) := do
  _ ← ensure_student db student_id
  .ok (todoList db none (some student_id))

/-- Value inserted for `completed_at` by `TodoService.create_todos`
(`services.py:110,123`): the caller-supplied value when it is not `None`,
else `_completion_timestamp(completed)`. -/
def createCompletedAt (now : String) (completed : Bool)
    (completed_at : Option String) : Option String :=
  match completed_at with
  | some x => some x
  | none => completionTimestamp now completed

/-- Fan-out loop body of `TodoService.create_todos` (`services.py:101-112`):
one `TodoRepository.create` call per student, collecting the created rows
in student order. -/
def createForStudents (owner_id : Nat) (title description : String)
    (due_date : Option String) (completed : Bool) (ca : Option String)
    (db : DB) : List User → DB × List Todo
  | [] => (db, [])
  | s :: rest =>
    let p := todoCreate db title description completed owner_id (some s.id)
      due_date ca
    let q := createForStudents owner_id title description due_date completed
      ca p.1 rest
    (q.1, p.2 :: q.2)

/-- `TodoService.create_todos` (`services.py:83-126`): requires
`ensure_teacher(owner_id)`; with no `assignee_id` it fans out to every
currently registered student (ValidationError when none exist), otherwise
it validates the assignee with `ensure_student` and creates one todo. -/
def create_todos (db : DB) (now : String) (owner_id : Nat)
    (title : String) (description : String) (due_date : Option String)
    (completed : Bool) (assignee_id : Option Nat)
    (completed_at : Option String) : Except Err (DB × List Todo) := do
  _ ← ensure_teacher db owner_id
  match assignee_id with
  | none =>
    let students := list_students db
    if students.isEmpty then .error .validation
    else
      .ok (createForStudents owner_id title description due_date completed
        (createCompletedAt now completed completed_at) db students)
  | some sid => do
    let student ← ensure_student db sid
    let p := todoCreate db title description completed owner_id
      (some student.id) due_date
      (createCompletedAt now completed completed_at)
    .ok (p.1, [p.2])

/-- `TodoService.assign_todo` (`services.py:146-149`): teacher access
check, student validation, then an update touching only `assignee_id`. -/
def assign_todo (db : DB) (todo_id owner_id student_id : Nat) :
    Except Err (DB × Option Todo) := do
  _ ← verify_teacher_access db todo_id owner_id
  let student ← ensure_student db student_id
  .ok (todoUpdate db todo_id none none none (some (some student.id)) none
    none)

/-- `TodoService.update_todo_by_teacher` (`services.py:151-184`): teacher
access check, assignee resolution, then the completion check. The source
line 174 reads
`completed_at_arg = completed_at if completed_at is not None else _completion_timestamp(completed)`
but no name `completed_at` is bound in that function or module, so
whenever `completed` is present and differs from the stored value the
Python raises `NameError` (modelled as `Err.nameError`) before any write;
in every non-raising path `completed_at_arg` stays `NO_UPDATE`. -/
def update_todo_by_teacher (db : DB) (todo_id owner_id : Nat)
    (title description : Option String) (due_date : Option (Option String))
    (completed : Option Bool) (assignee_id : Option (Option Nat)) :
    Except Err (DB × Option Todo) := do
  let todo ← verify_teacher_access db todo_id owner_id
  let assignee_arg : Option (Option Nat) ←
    match assignee_id with
    | none => pure none
    | some none => pure (some none)
    | some (some sid) => do
      let assignee ← ensure_student db sid
      pure (some (some assignee.id))
  if (match completed with
      | some c => c != todo.completed
      | none => false) then
    .error .nameError
  else
    .ok (todoUpdate db todo_id title description completed assignee_arg
      due_date none)

/-- `TodoService.update_todo_by_student` (`services.py:186-194`): student
access check, then an update that sets `completed` and unconditionally
recomputes `completed_at` from `_completion_timestamp(completed)`,
leaving every other field out of the update. -/
def update_todo_by_student (db : DB) (now : String) (todo_id student_id : Nat)
    (completed : Bool) : Except Err (DB × Option Todo) := do
  _ ← verify_student_access db todo_id student_id
  .ok (todoUpdate db todo_id none none (some completed) none none
    (some (completionTimestamp now completed)))

/-- `TodoService.delete_todo` (`services.py:196-198`). -/
def delete_todo (db : DB) (todo_id owner_id : Nat) : Except Err DB := do
  _ ← verify_teacher_access db todo_id owner_id
  .ok (todoDelete db todo_id)

/-! ## Invariants and derived notions used by the claims -/

/-- Completion invariant of one todo: `completed=true ⇔ completed_at≠null`. -/
def invTodo (t : Todo) : Prop :=
  t.completed = true ↔ t.completed_at ≠ none

instance (t : Todo) : Decidable (invTodo t) := by
  unfold invTodo
  infer_instance

/-- Completion invariant over the whole store. -/
def invDB (db : DB) : Prop :=
  ∀ t ∈ db.todos, invTodo t

instance (db : DB) : Decidable (invDB db) := by
  unfold invDB
  infer_instance

/-- Primary-key uniqueness of the `todos` table. -/
def todosNodup (db : DB) : Prop :=
  (db.todos.map (fun t => t.id)).Nodup

instance (db : DB) : Decidable (todosNodup db) := by
  unfold todosNodup
  infer_instance

/-- Primary-key uniqueness of the `users` table. -/
def usersNodup (db : DB) : Prop :=
  (db.users.map (fun u => u.id)).Nodup

instance (db : DB) : Decidable (usersNodup db) := by
  unfold usersNodup
  infer_instance

/-- One create/update operation of the Todo Service, as enumerated by the
invariant claim: `create_todos`, `assign_todo`, `update_todo_by_teacher`,
`update_todo_by_student`. -/
inductive Op where
  | create (owner_id : Nat) (title description : String)
      (due_date : Option String) (completed : Bool)
      (assignee_id : Option Nat) (completed_at : Option String)
  | assign (todo_id owner_id student_id : Nat)
  | teacherUpdate (todo_id owner_id : Nat) (title description : Option String)
      (due_date : Option (Option String)) (completed : Option Bool)
      (assignee_id : Option (Option Nat))
  | studentUpdate (todo_id student_id : Nat) (completed : Bool)
deriving DecidableEq, Repr

/-- Run one service operation, keeping only the store it produces. -/
def runOp (db : DB) (now : String) : Op → Except Err DB
  | .create o ti de dd c a ca =>
    (create_todos db now o ti de dd c a ca).map (fun p => p.1)
  | .assign tid o s => (assign_todo db tid o s).map (fun p => p.1)
  | .teacherUpdate tid o ti de dd c a =>
    (update_todo_by_teacher db tid o ti de dd c a).map (fun p => p.1)
  | .studentUpdate tid s c =>
    (update_todo_by_student db now tid s c).map (fun p => p.1)

/-- Store state after one service operation; every failure of the four
operations is raised before the single SQL write, so a failing operation
leaves the store as it was. -/
def dbAfter (db : DB) (now : String) (op : Op) : DB :=
  match runOp db now op with
  | .ok db2 => db2
  | .error _ => db

/-- The explicit `completed_at` argument of `create_todos` (used only by
the seeding script) is consistent with the `completed` flag. -/
def caConsistent : Op → Prop
  | .create _ _ _ _ c _ ca => ca = none ∨ c = true
  | _ => True

instance (op : Op) : Decidable (caConsistent op) := by
  unfold caConsistent
  cases op <;> infer_instance

/-- The `completed_at` column of the row an update call reports back, when
the call succeeded and the row exists. -/
def updatedCompletedAt (r : Except Err (DB × Option Todo)) :
    Option (Option String) :=
  match r with
  | .ok (_, some t) => some t.completed_at
  | _ => none

/-! ## Concrete stores used to evaluate the claims -/

/-- A store with one teacher (id 1), one student (id 2) and one incomplete
todo (id 1) owned by the teacher and assigned to the student. -/
def dbEx : DB :=
  ⟨[⟨1, "Teacher", .teacher⟩, ⟨2, "Student", .student⟩],
   [⟨1, "Homework", "Write report", false, 1, some 2, none, none⟩], 3, 2⟩

/-- A store with one teacher (id 1) and no student at all. -/
def dbNoStu : DB :=
  ⟨[⟨1, "Teacher", .teacher⟩], [], 2, 1⟩

/-- A store whose only todo (id 1) is unassigned. -/
def dbUn : DB :=
  ⟨[⟨1, "Teacher", .teacher⟩, ⟨2, "Student", .student⟩],
   [⟨1, "Homework", "", false, 1, none, none, none⟩], 3, 2⟩

/-- A store whose only todo (id 1) is already completed, stamped at an
earlier clock value. -/
def dbPrior : DB :=
  ⟨[⟨1, "Teacher", .teacher⟩, ⟨2, "Student", .student⟩],
   [⟨1, "Homework", "", true, 1, some 2, none,
     some "2024-01-01T10:00:00"⟩], 3, 2⟩

/-! ## Helper lemmas -/

@[simp]
theorem ok_bind {α β : Type} (a : α) (f : α → Except Err β) :
    (Except.ok a >>= f : Except Err β) = f a := rfl

@[simp]
theorem error_bind {α β : Type} (e : Err) (f : α → Except Err β) :
    (Except.error e >>= f : Except Err β) = .error e := rfl

@[simp]
theorem pure_eq_ok {α : Type} (a : α) : (pure a : Except Err α) = .ok a := rfl

theorem digitVal_spec {c : Char} {v : Nat} (h : digitVal c = some v) :
    v ≤ 9 ∧ digitChar v = c := by
  unfold digitVal at h
  split_ifs at h with h0 h1 h2 h3 h4 h5 h6 h7 h8 h9 <;>
    simp only [Option.some.injEq] at h <;>
    subst_vars <;> exact ⟨by omega, rfl⟩

/-- Printing is a left inverse of parsing: any list of characters accepted
by `parseList` is reproduced exactly by `formatList`. -/
theorem formatList_parseList {l : List Char} {y m d : Nat}
    (h : parseList l = some (y, m, d)) : formatList y m d = l := by
  unfold parseList at h
  split at h
  case h_2 => exact absurd h (by simp)
  case h_1 y1 y2 y3 y4 s1 m1 m2 s2 d1 d2 =>
    split at h
    case isFalse => exact absurd h (by simp)
    case isTrue hdash =>
      obtain ⟨hs1, hs2⟩ := hdash
      split at h
      case h_2 => exact absurd h (by simp)
      case h_1 a1 a2 a3 a4 b1 b2 c1 c2 hy1 hy2 hy3 hy4 hm1 hm2 hd1 hd2 =>
        split at h
        case isFalse => exact absurd h (by simp)
        case isTrue hrange =>
          obtain ⟨hy, hm, hd⟩ := Option.some.inj h
          obtain ⟨ha1, ea1⟩ := digitVal_spec hy1
          obtain ⟨ha2, ea2⟩ := digitVal_spec hy2
          obtain ⟨ha3, ea3⟩ := digitVal_spec hy3
          obtain ⟨ha4, ea4⟩ := digitVal_spec hy4
          obtain ⟨hb1, eb1⟩ := digitVal_spec hm1
          obtain ⟨hb2, eb2⟩ := digitVal_spec hm2
          obtain ⟨hc1, ec1⟩ := digitVal_spec hd1
          obtain ⟨hc2, ec2⟩ := digitVal_spec hd2
          have e1 : (((a1 * 10 + a2) * 10 + a3) * 10 + a4) / 1000 = a1 := by
            omega
          have e2 : (((a1 * 10 + a2) * 10 + a3) * 10 + a4) / 100 % 10 = a2 := by
            omega
          have e3 : (((a1 * 10 + a2) * 10 + a3) * 10 + a4) / 10 % 10 = a3 := by
            omega
          have e4 : (((a1 * 10 + a2) * 10 + a3) * 10 + a4) % 10 = a4 := by
            omega
          have f1 : (b1 * 10 + b2) / 10 = b1 := by omega
          have f2 : (b1 * 10 + b2) % 10 = b2 := by omega
          have g1 : (c1 * 10 + c2) / 10 = c1 := by omega
          have g2 : (c1 * 10 + c2) % 10 = c2 := by omega
          simp [formatList, e1, e2, e3, e4, f1, f2, g1, g2, ea1, ea2, ea3,
            ea4, eb1, eb2, ec1, ec2, hs1, hs2]

theorem isoFormat_isoParse {s : String} {y m d : Nat}
    (h : isoParse s = some (y, m, d)) : isoFormat y m d = s := by
  obtain ⟨l⟩ := s
  unfold isoFormat
  rw [formatList_parseList h]

/-- C1: the claim says a teacher update whose `completed` value differs
from the stored one stamps or clears `completed_at` and returns the
updated todo. On the code, that very branch (`services.py:174`) reads the
unbound name `completed_at` and raises `NameError` before any write:
evaluated at a stored incomplete todo and a patch setting
`completed=true`, the call errors instead of stamping. -/
theorem C1_teacher_toggle_raises_name_error :
    update_todo_by_teacher dbEx 1 1 none none none (some true) none =
      .error .nameError ∧
    update_todo_by_teacher dbEx 1 1 none none none (some false) none =
      .ok (dbEx, some ⟨1, "Homework", "Write report", false, 1, some 2,
        none, none⟩) := by
  constructor <;> rfl

/-- C6: `ensure_teacher` fails NotFound when the user id is absent and
PermissionDenied when the user exists with a non-teacher role, while
`ensure_student` fails NotFound when absent and with a Validation error
(not a permission error) when the user exists with a non-student role. -/
theorem C6_role_check_errors (db : DB) (uid : Nat) :
    (userGet db uid = none →
      ensure_teacher db uid = .error .notFound ∧
      ensure_student db uid = .error .notFound) ∧
    (∀ u : User, userGet db uid = some u → u.role ≠ .teacher →
      ensure_teacher db uid = .error .permissionDenied) ∧
    (∀ u : User, userGet db uid = some u → u.role ≠ .student →
      ensure_student db uid = .error .validation) := by
  refine ⟨fun h => ⟨?_, ?_⟩, fun u h hr => ?_, fun u h hr => ?_⟩
  · simp [ensure_teacher, get_user, h]
  · simp [ensure_student, get_user, h]
  · simp [ensure_teacher, get_user, h, hr]
  · simp [ensure_student, get_user, h, hr]

/-- C6 witness: on `dbEx`, an absent id 99 is NotFound for both checks,
the student id 2 is PermissionDenied for `ensure_teacher`, and the
teacher id 1 is a Validation error for `ensure_student`. -/
theorem C6_role_check_errors_witness :
    ensure_teacher dbEx 99 = .error .notFound ∧
    ensure_student dbEx 99 = .error .notFound ∧
    ensure_teacher dbEx 2 = .error .permissionDenied ∧
    ensure_student dbEx 1 = .error .validation :=
  ⟨((C6_role_check_errors dbEx 99).1 rfl).1,
   ((C6_role_check_errors dbEx 99).1 rfl).2,
   (C6_role_check_errors dbEx 2).2.1 ⟨2, "Student", .student⟩ rfl
     (by decide),
   (C6_role_check_errors dbEx 1).2.2 ⟨1, "Teacher", .teacher⟩ rfl
     (by decide)⟩

/-- C7: `verify_teacher_access` fails NotFound when the todo is absent
(regardless of the caller), otherwise PermissionDenied exactly when the
owner differs from the caller, returning the todo on a match;
`verify_student_access` behaves symmetrically on `assignee_id`. -/
theorem C7_access_check_errors (db : DB) (tid cid : Nat) :
    (todoGet db tid = none →
      verify_teacher_access db tid cid = .error .notFound ∧
      verify_student_access db tid cid = .error .notFound) ∧
    (∀ T : Todo, todoGet db tid = some T →
      (T.owner_id ≠ cid →
        verify_teacher_access db tid cid = .error .permissionDenied) ∧
      (T.owner_id = cid → verify_teacher_access db tid cid = .ok T) ∧
      (T.assignee_id ≠ some cid →
        verify_student_access db tid cid = .error .permissionDenied) ∧
      (T.assignee_id = some cid →
        verify_student_access db tid cid = .ok T)) := by
  refine ⟨fun h => ⟨?_, ?_⟩,
    fun T h => ⟨fun ho => ?_, fun ho => ?_, fun ha => ?_, fun ha => ?_⟩⟩
  · simp [verify_teacher_access, service_get_todo, h]
  · simp [verify_student_access, service_get_todo, h]
  · simp [verify_teacher_access, service_get_todo, h, ho]
  · simp [verify_teacher_access, service_get_todo, h, ho]
  · simp [verify_student_access, service_get_todo, h, ha]
  · simp [verify_student_access, service_get_todo, h, ha]

/-- C7 witness: on `dbEx` (todo 1 owned by 1, assigned to 2), an absent
todo id is NotFound for any caller, a non-owner and a non-assignee are
PermissionDenied, and the owner and the assignee get the todo back. -/
theorem C7_access_check_errors_witness :
    verify_teacher_access dbEx 5 7 = .error .notFound ∧
    verify_teacher_access dbEx 1 2 = .error .permissionDenied ∧
    verify_teacher_access dbEx 1 1 =
      .ok ⟨1, "Homework", "Write report", false, 1, some 2, none, none⟩ ∧
    verify_student_access dbEx 1 7 = .error .permissionDenied ∧
    verify_student_access dbEx 1 2 =
      .ok ⟨1, "Homework", "Write report", false, 1, some 2, none, none⟩ :=
  ⟨((C7_access_check_errors dbEx 5 7).1 rfl).1,
   ((C7_access_check_errors dbEx 1 2).2 _ rfl).1 (by decide),
   ((C7_access_check_errors dbEx 1 1).2 _ rfl).2.1 rfl,
   ((C7_access_check_errors dbEx 1 7).2 _ rfl).2.2.1 (by decide),
   ((C7_access_check_errors dbEx 1 2).2 _ rfl).2.2.2 rfl⟩

/-- C8: `normalize_due_date` is pure; null and the empty string return
null (not an error); any non-string input fails with a Validation error;
any string that does not parse as an ISO `YYYY-MM-DD` calendar date fails
with a Validation error; any valid ISO date string returns the canonical
ISO date string (in particular `"2030-05-01"` maps to itself and
`"05/01/2030"` fails Validation). -/
theorem C8_normalize_due_date :
    normalize_due_date .vNone = .ok none ∧
    normalize_due_date (.vStr "") = .ok none ∧
    (∀ n : Int, normalize_due_date (.vInt n) = .error .validation) ∧
    (∀ b : Bool, normalize_due_date (.vBool b) = .error .validation) ∧
    (∀ l : List String,
      normalize_due_date (.vList l) = .error .validation) ∧
    (∀ s : String, s ≠ "" → isoParse s = none →
      normalize_due_date (.vStr s) = .error .validation) ∧
    (∀ (s : String) (y m d : Nat), isoParse s = some (y, m, d) →
      normalize_due_date (.vStr s) = .ok (some s)) ∧
    normalize_due_date (.vStr "2030-05-01") = .ok (some "2030-05-01") ∧
    normalize_due_date (.vStr "05/01/2030") = .error .validation := by
  refine ⟨rfl, rfl, fun n => rfl, fun b => rfl, fun l => rfl, ?_, ?_, ?_, ?_⟩
  · intro s hs hparse
    simp [normalize_due_date, hs, hparse]
  · intro s y m d hparse
    have hs : s ≠ "" := by
      intro he
      rw [he, show isoParse "" = none from rfl] at hparse
      exact Option.noConfusion hparse
    simp [normalize_due_date, hs, hparse, isoFormat_isoParse hparse]
  · rfl
  · rfl

/-- C8 witness: concrete instances of the hypothesis-bearing conjuncts of
`C8_normalize_due_date` (a leap day parses and is returned verbatim, a
US-format and an out-of-range date fail Validation). -/
theorem C8_normalize_due_date_witness :
    normalize_due_date (.vStr "2024-02-29") = .ok (some "2024-02-29") ∧
    normalize_due_date (.vStr "2024-13-01") = .error .validation :=
  ⟨C8_normalize_due_date.2.2.2.2.2.2.1 "2024-02-29" 2024 2 29 (by decide),
   C8_normalize_due_date.2.2.2.2.2.1 "2024-13-01" (by decide) (by decide)⟩

theorem applyPatch_id (t : Todo) (ti de : Option String) (co : Option Bool)
    (asg : Option (Option Nat)) (dd ca : Option (Option String)) :
    (applyPatch t ti de co asg dd ca).id = t.id := rfl

theorem find?_map_patch (f : Todo → Todo) (hf : ∀ t, (f t).id = t.id)
    (tid : Nat) :
    ∀ l : List Todo,
      (l.map (fun t => if t.id = tid then f t else t)).find?
          (fun t => t.id = tid) =
        (l.find? (fun t => t.id = tid)).map f
  | [] => rfl
  | a :: l => by
    by_cases ha : a.id = tid
    · rw [List.map_cons, if_pos ha,
        List.find?_cons_of_pos _ (by simp [hf, ha]),
        List.find?_cons_of_pos _ (by simp [ha])]
      rfl
    · rw [List.map_cons, if_neg ha,
        List.find?_cons_of_neg _ (by simp [ha]),
        List.find?_cons_of_neg _ (by simp [ha])]
      exact find?_map_patch f hf tid l

/-- The row re-read by `TodoRepository.update` is the stored row with the
patch applied (or absent when the id does not exist). -/
theorem todoUpdate_snd (db : DB) (tid : Nat) (ti de : Option String)
    (co : Option Bool) (asg : Option (Option Nat))
    (dd ca : Option (Option String)) :
    (todoUpdate db tid ti de co asg dd ca).2 =
      (todoGet db tid).map (fun t => applyPatch t ti de co asg dd ca) := by
  have h := find?_map_patch (fun t => applyPatch t ti de co asg dd ca)
    (fun t => rfl) tid db.todos
  simpa [todoUpdate, todoGet] using h

theorem todoUpdate_fst_todos (db : DB) (tid : Nat) (ti de : Option String)
    (co : Option Bool) (asg : Option (Option Nat))
    (dd ca : Option (Option String)) :
    (todoUpdate db tid ti de co asg dd ca).1.todos =
      db.todos.map (fun t =>
        if t.id = tid then applyPatch t ti de co asg dd ca else t) := rfl

theorem ensure_teacher_ok {db : DB} {uid : Nat} {u : User}
    (h : userGet db uid = some u) (hr : u.role = .teacher) :
    ensure_teacher db uid = .ok u := by
  simp [ensure_teacher, get_user, h, hr]

theorem ensure_student_ok {db : DB} {uid : Nat} {u : User}
    (h : userGet db uid = some u) (hr : u.role = .student) :
    ensure_student db uid = .ok u := by
  simp [ensure_student, get_user, h, hr]

theorem verify_teacher_access_ok {db : DB} {tid oid : Nat} {T : Todo}
    (h : todoGet db tid = some T) (ho : T.owner_id = oid) :
    verify_teacher_access db tid oid = .ok T := by
  simp [verify_teacher_access, service_get_todo, h, ho]

theorem verify_student_access_ok {db : DB} {tid sid : Nat} {T : Todo}
    (h : todoGet db tid = some T) (ha : T.assignee_id = some sid) :
    verify_student_access db tid sid = .ok T := by
  simp [verify_student_access, service_get_todo, h, ha]

/-- A `find?` hit is the unique id-match when the stored ids are nodup. -/
theorem find?_nodup_unique {tid : Nat} :
    ∀ {l : List Todo} {t0 : Todo}, (l.map (fun t => t.id)).Nodup →
      l.find? (fun t => t.id = tid) = some t0 →
      ∀ t ∈ l, t.id = tid → t = t0
  | [], _, _, h => by simp at h
  | a :: l, t0, hnd, h => by
    rw [List.map_cons, List.nodup_cons] at hnd
    by_cases ha : a.id = tid
    · rw [List.find?_cons_of_pos _ (by simp [ha])] at h
      obtain rfl := Option.some.inj h
      intro t ht htid
      rcases List.mem_cons.mp ht with rfl | htl
      · rfl
      · have hmem : a.id ∈ l.map (fun t => t.id) := by
          rw [ha, ← htid]
          exact List.mem_map_of_mem _ htl
        exact absurd hmem (by simpa using hnd.1)

    · rw [List.find?_cons_of_neg _ (by simp [ha])] at h
      intro t ht htid
      rcases List.mem_cons.mp ht with rfl | htl
      · exact absurd htid ha
      · exact find?_nodup_unique hnd.2 h t htl htid

/-- C10: an existing unassigned todo is unreachable through every student
path: `verify_student_access` fails PermissionDenied for every caller id,
`update_todo_by_student` therefore fails the same way and writes nothing,
and the todo never appears in a successful `list_for_student` result. -/
theorem C10_unassigned_unreachable_by_students (db : DB) (tid sid : Nat)
    (T : Todo) (hT : todoGet db tid = some T)
    (hA : T.assignee_id = none) :
    verify_student_access db tid sid = .error .permissionDenied ∧
    (∀ (now : String) (c : Bool),
      update_todo_by_student db now tid sid c =
        .error .permissionDenied) ∧
    (∀ l : List Todo, list_for_student db sid = .ok l → T ∉ l) := by
  have hv : verify_student_access db tid sid = .error .permissionDenied := by
    simp [verify_student_access, service_get_todo, hT, hA]
  refine ⟨hv, fun now c => ?_, fun l hl hmem => ?_⟩
  · simp [update_todo_by_student, hv]
  · have hl2 : l = todoList db none (some sid) := by
      cases hes : ensure_student db sid with
      | error e => simp [list_for_student, hes] at hl
      | ok u =>
        simp [list_for_student, hes] at hl
        exact hl.symm
    subst hl2
    have := (List.mem_filter.mp (List.mem_reverse.mp hmem)).2
    simp [hA] at this

/-- C10 witness: on `dbUn` (todo 1 unassigned), student 2 is denied by
the access check and the update path, and the todo is absent from the
student listing. -/
theorem C10_unassigned_unreachable_by_students_witness :
    verify_student_access dbUn 1 2 = .error .permissionDenied ∧
    update_todo_by_student dbUn "2024-01-01T00:00:00" 1 2 true =
      .error .permissionDenied ∧
    (⟨1, "Homework", "", false, 1, none, none, none⟩ : Todo) ∉
      ([] : List Todo) :=
  ⟨(C10_unassigned_unreachable_by_students dbUn 1 2 _ rfl rfl).1,
   (C10_unassigned_unreachable_by_students dbUn 1 2 _ rfl rfl).2.1
     "2024-01-01T00:00:00" true,
   (C10_unassigned_unreachable_by_students dbUn 1 2 _ rfl rfl).2.2 []
     rfl⟩

/-- C9: `update_todo_by_student` on an assigned todo changes only the
completion flag and its derived timestamp; the reported row keeps the
stored title, description, due date and assignee for every input. -/
theorem C9_student_update_frame (db : DB) (now : String) (tid sid : Nat)
    (T : Todo) (c : Bool) (db2 : DB) (t2 : Todo)
    (hT : todoGet db tid = some T) (hA : T.assignee_id = some sid)
    (h : update_todo_by_student db now tid sid c = .ok (db2, some t2)) :
    t2.title = T.title ∧ t2.description = T.description ∧
    t2.due_date = T.due_date ∧ t2.assignee_id = T.assignee_id ∧
    t2.completed = c ∧ t2.completed_at = completionTimestamp now c := by
  rw [update_todo_by_student, verify_student_access_ok hT hA, ok_bind] at h
  replace h : Except.ok (todoUpdate db tid none none (some c) none none
      (some (completionTimestamp now c))) = Except.ok (db2, some t2) := h
  have h2 : (todoUpdate db tid none none (some c) none none
      (some (completionTimestamp now c))).2 = some t2 := by
    rw [Except.ok.inj h]
  rw [todoUpdate_snd, hT, Option.map_some'] at h2
  obtain rfl := Option.some.inj h2
  exact ⟨rfl, rfl, rfl, rfl, rfl, rfl⟩

/-- C9 witness: completing todo 1 of `dbEx` as student 2 reports the row
with only `completed`/`completed_at` changed. -/
theorem C9_student_update_frame_witness :
    (⟨1, "Homework", "Write report", true, 1, some 2, none,
        some "2024-05-05T08:00:00"⟩ : Todo).title = "Homework" ∧
    (⟨1, "Homework", "Write report", true, 1, some 2, none,
        some "2024-05-05T08:00:00"⟩ : Todo).assignee_id = some 2 :=
  ⟨((C9_student_update_frame dbEx "2024-05-05T08:00:00" 1 2 _ true _ _
      rfl rfl rfl).1),
   ((C9_student_update_frame dbEx "2024-05-05T08:00:00" 1 2 _ true _ _
      rfl rfl rfl).2.2.2.1)⟩

theorem teacher_update_tail {db : DB} {tid : Nat} {ti de : Option String}
    {dd : Option (Option String)} {co : Option Bool} {T : Todo} {db2 : DB}
    {r : Option Todo} (asg2 : Option (Option Nat))
    (h : (if (match co with
              | some c => c != T.completed
              | none => false) = true then
            (.error .nameError : Except Err (DB × Option Todo))
          else .ok (todoUpdate db tid ti de co asg2 dd none)) =
      .ok (db2, r)) :
    (∀ c, co = some c → c = T.completed) ∧
    r = (todoUpdate db tid ti de co asg2 dd none).2 := by
  rcases co with _ | c
  · simp only [Bool.false_eq_true, if_false] at h
    exact ⟨fun c hc => Option.noConfusion hc, by rw [Except.ok.inj h]⟩
  · by_cases hc : c = T.completed
    · subst hc
      simp only [bne_self_eq_false, Bool.false_eq_true, if_false] at h
      exact ⟨fun c2 hc2 => (Option.some.inj hc2).symm,
        by rw [Except.ok.inj h]⟩
    · rw [if_pos (by simpa using hc)] at h
      exact absurd h (by simp)

/-- Successful teacher updates report the stored row with the patch
applied: the resolved assignee argument mirrors the request (absent stays
absent, explicit null stays an explicit null), a present `completed`
equals the stored flag (otherwise the call raises), and the
`completed_at` column is never part of the patch. -/
theorem teacher_update_ok_shape {db : DB} {tid oid : Nat} {T : Todo}
    {ti de : Option String} {dd : Option (Option String)}
    {co : Option Bool} {asg : Option (Option Nat)} {db2 : DB}
    {r : Option Todo}
    (hT : todoGet db tid = some T) (ho : T.owner_id = oid)
    (h : update_todo_by_teacher db tid oid ti de dd co asg =
      .ok (db2, r)) :
    ∃ asg2 : Option (Option Nat),
      (asg = none → asg2 = none) ∧
      (asg = some none → asg2 = some none) ∧
      (∀ c, co = some c → c = T.completed) ∧
      r = some (applyPatch T ti de co asg2 dd none) := by
  rw [update_todo_by_teacher, verify_teacher_access_ok hT ho, ok_bind] at h
  have hsnd : ∀ asg2 : Option (Option Nat),
      (todoUpdate db tid ti de co asg2 dd none).2 =
        some (applyPatch T ti de co asg2 dd none) := by
    intro asg2
    rw [todoUpdate_snd, hT, Option.map_some']
  rcases asg with _ | asg0
  · simp only [pure_eq_ok, ok_bind] at h
    obtain ⟨hco, hr⟩ := teacher_update_tail none h
    exact ⟨none, fun _ => rfl, fun hx => Option.noConfusion hx, hco,
      hr.trans (hsnd none)⟩
  · rcases asg0 with _ | sid
    · simp only [pure_eq_ok, ok_bind] at h
      obtain ⟨hco, hr⟩ := teacher_update_tail (some none) h
      exact ⟨some none, fun hx => Option.noConfusion hx, fun _ => rfl, hco,
        hr.trans (hsnd (some none))⟩
    · cases hes : ensure_student db sid with
      | error e =>
        simp only [hes, error_bind] at h
        exact Except.noConfusion h
      | ok a =>
        simp only [hes, ok_bind, pure_eq_ok] at h
        obtain ⟨hco, hr⟩ := teacher_update_tail (some (some a.id)) h
        exact ⟨some (some a.id),
          fun hx => Option.noConfusion hx,
          fun hx => Option.noConfusion (Option.some.inj hx), hco,
          hr.trans (hsnd (some (some a.id)))⟩

/-- C5: in `update_todo_by_teacher`, a field absent from the patch leaves
the stored field unchanged; `assigneeId` present-and-null clears the
assignment (distinct from omitting it, which keeps the current assignee);
and setting `description` to the empty string sets it, which is distinct
from omitting it. -/
theorem C5_teacher_update_frame (db : DB) (tid oid : Nat) (T : Todo)
    (ti de : Option String) (dd : Option (Option String))
    (co : Option Bool) (asg : Option (Option Nat)) (db2 : DB) (t2 : Todo)
    (hT : todoGet db tid = some T) (ho : T.owner_id = oid)
    (h : update_todo_by_teacher db tid oid ti de dd co asg =
      .ok (db2, some t2)) :
    (ti = none → t2.title = T.title) ∧
    (de = none → t2.description = T.description) ∧
    (dd = none → t2.due_date = T.due_date) ∧
    (co = none → t2.completed = T.completed ∧
      t2.completed_at = T.completed_at) ∧
    (asg = none → t2.assignee_id = T.assignee_id) ∧
    (asg = some none → t2.assignee_id = none) ∧
    (de = some "" → t2.description = "") := by
  obtain ⟨asg2, hn, hsn, -, hr⟩ := teacher_update_ok_shape hT ho h
  obtain rfl := Option.some.inj hr
  refine ⟨fun hx => ?_, fun hx => ?_, fun hx => ?_, fun hx => ?_,
    fun hx => ?_, fun hx => ?_, fun hx => ?_⟩
  · subst hx
    simp [applyPatch]
  · subst hx
    simp [applyPatch]
  · subst hx
    simp [applyPatch]
  · subst hx
    simp [applyPatch]
  · rw [hn hx]
    simp [applyPatch]
  · rw [hsn hx]
    simp [applyPatch]
  · subst hx
    simp [applyPatch]

/-- C5 witness: on `dbEx`, a patch setting only the description to the
empty string keeps title, due date, completion and assignee, and a patch
with an explicit null assignee clears the assignment. -/
theorem C5_teacher_update_frame_witness :
    ((⟨1, "Homework", "", false, 1, some 2, none, none⟩ : Todo).title =
        "Homework" ∧
      (⟨1, "Homework", "", false, 1, some 2, none, none⟩ : Todo).description
        = "") ∧
    (⟨1, "Homework", "Write report", false, 1, none, none, none⟩ :
        Todo).assignee_id = none :=
  ⟨⟨(C5_teacher_update_frame dbEx 1 1 _ none (some "") none none none _ _
        rfl rfl rfl).1 rfl,
    (C5_teacher_update_frame dbEx 1 1 _ none (some "") none none none _ _
        rfl rfl rfl).2.2.2.2.2.2 rfl⟩,
   (C5_teacher_update_frame dbEx 1 1 _ none none none none (some none) _ _
        rfl rfl rfl).2.2.2.2.2.1 rfl⟩

theorem updatedCompletedAt_ok (p : DB × Option Todo) :
    updatedCompletedAt (.ok p) = p.2.map (fun t => t.completed_at) := by
  rcases p with ⟨d, _ | t⟩ <;> rfl

/-- C3 counterexample: on `dbPrior`, todo 1 is stored completed with
stamp `2024-01-01T10:00:00`; the student path sets `completed` to its
current value `true` and the stamp after the call is the new clock value,
not the stored one — the claim's "timestamp before equals timestamp
after" fails on the student path. -/
theorem C3_student_self_set_changes_stamp :
    (todoGet dbPrior 1).map (fun t => (t.completed, t.completed_at)) =
      some (true, some "2024-01-01T10:00:00") ∧
    updatedCompletedAt (update_todo_by_student dbPrior
      "2024-01-02T09:00:00" 1 2 true) =
      some (some "2024-01-02T09:00:00") ∧
    (some "2024-01-02T09:00:00" : Option String) ≠
      some "2024-01-01T10:00:00" :=
  ⟨rfl, rfl, by decide⟩

/-- C3 amended: setting `completed` to its current stored value leaves
`completed_at` unchanged on the teacher path; on the student path the
stamp is rewritten to `_completion_timestamp(completed)`, so it is
preserved when the todo is incomplete (given the completion invariant)
but overwritten with the current clock value when the todo is already
completed. -/
theorem C3_self_set_stamp (db : DB) (now : String) (tid oid sid : Nat)
    (T : Todo) (hT : todoGet db tid = some T) :
    (T.owner_id = oid →
      updatedCompletedAt (update_todo_by_teacher db tid oid none none none
        (some T.completed) none) = some T.completed_at) ∧
    (T.assignee_id = some sid →
      updatedCompletedAt (update_todo_by_student db now tid sid
        T.completed) = some (completionTimestamp now T.completed)) ∧
    (T.assignee_id = some sid → T.completed = false → invTodo T →
      updatedCompletedAt (update_todo_by_student db now tid sid
        T.completed) = some T.completed_at) := by
  have hstu : T.assignee_id = some sid →
      updatedCompletedAt (update_todo_by_student db now tid sid
        T.completed) = some (completionTimestamp now T.completed) := by
    intro hA
    rw [update_todo_by_student, verify_student_access_ok hT hA, ok_bind,
      updatedCompletedAt_ok, todoUpdate_snd, hT, Option.map_some',
      Option.map_some']
    simp [applyPatch]
  refine ⟨fun ho => ?_, hstu, fun hA hc hi => ?_⟩
  · have hok : update_todo_by_teacher db tid oid none none none
        (some T.completed) none =
        .ok (todoUpdate db tid none none (some T.completed) none none
          none) := by
      rw [update_todo_by_teacher, verify_teacher_access_ok hT ho, ok_bind]
      simp
    rw [hok, updatedCompletedAt_ok, todoUpdate_snd, hT, Option.map_some',
      Option.map_some']
    simp [applyPatch]
  · have hca : T.completed_at = none := by
      unfold invTodo at hi
      by_contra hne
      rw [hc] at hi
      exact Bool.noConfusion (hi.mpr hne)
    rw [hstu hA, hca, hc]
    rfl

/-- C3 witness: on `dbPrior` the teacher self-set keeps the old stamp, on
`dbPrior` the student self-set overwrites it with the new clock, and on
the incomplete `dbEx` todo the student self-set keeps the null stamp. -/
theorem C3_self_set_stamp_witness :
    updatedCompletedAt (update_todo_by_teacher dbPrior 1 1 none none none
      (some true) none) = some (some "2024-01-01T10:00:00") ∧
    updatedCompletedAt (update_todo_by_student dbPrior
      "2024-03-03T00:00:00" 1 2 true) =
      some (some "2024-03-03T00:00:00") ∧
    updatedCompletedAt (update_todo_by_student dbEx
      "2024-03-03T00:00:00" 1 2 false) = some none :=
  ⟨(C3_self_set_stamp dbPrior "2024-03-03T00:00:00" 1 1 2 _ rfl).1 rfl,
   (C3_self_set_stamp dbPrior "2024-03-03T00:00:00" 1 1 2 _ rfl).2.1 rfl,
   (C3_self_set_stamp dbEx "2024-03-03T00:00:00" 1 1 2 _ rfl).2.2 rfl rfl
     (by decide)⟩

/-- Unfolding of the fan-out loop: the created rows are appended to the
store in student order, their `assignee_id` columns are exactly the
student ids in order, and every created row carries the request fields. -/
theorem createForStudents_spec (oid : Nat) (ti de : String)
    (dd : Option String) (c : Bool) (ca : Option String) :
    ∀ (students : List User) (db : DB),
      ((createForStudents oid ti de dd c ca db students).1.todos =
        db.todos ++ (createForStudents oid ti de dd c ca db students).2) ∧
      ((createForStudents oid ti de dd c ca db students).2.map
          (fun t => t.assignee_id) =
        students.map (fun s => some s.id)) ∧
      (∀ t ∈ (createForStudents oid ti de dd c ca db students).2,
        t.owner_id = oid ∧ t.title = ti ∧ t.description = de ∧
        t.due_date = dd ∧ t.completed = c ∧ t.completed_at = ca)
  | [], db => by simp [createForStudents]
  | s :: rest, db => by
    obtain ⟨h1, h2, h3⟩ := createForStudents_spec oid ti de dd c ca rest
      (todoCreate db ti de c oid (some s.id) dd ca).1
    simp only [createForStudents]
    refine ⟨?_, ?_, ?_⟩
    · rw [h1]
      simp [todoCreate]
    · simp only [List.map_cons, h2]
      simp [todoCreate]
    · intro t ht
      rcases List.mem_cons.mp ht with rfl | htl
      · exact ⟨rfl, rfl, rfl, rfl, rfl, rfl⟩
      · exact h3 t htl

theorem verify_teacher_access_ok_inv {db : DB} {tid oid : Nat} {T : Todo}
    (h : verify_teacher_access db tid oid = .ok T) :
    todoGet db tid = some T ∧ T.owner_id = oid := by
  unfold verify_teacher_access service_get_todo at h
  cases hg : todoGet db tid with
  | none => rw [hg] at h; exact Except.noConfusion h
  | some t =>
    rw [hg] at h
    simp only [ok_bind] at h
    by_cases ho : t.owner_id = oid
    · rw [if_neg (by simp [ho])] at h
      obtain rfl := Except.ok.inj h
      exact ⟨rfl, ho⟩
    · rw [if_pos (by simp [ho])] at h
      exact Except.noConfusion h

theorem verify_student_access_ok_inv {db : DB} {tid sid : Nat} {T : Todo}
    (h : verify_student_access db tid sid = .ok T) :
    todoGet db tid = some T ∧ T.assignee_id = some sid := by
  unfold verify_student_access service_get_todo at h
  cases hg : todoGet db tid with
  | none => rw [hg] at h; exact Except.noConfusion h
  | some t =>
    rw [hg] at h
    simp only [ok_bind] at h
    by_cases ha : t.assignee_id = some sid
    · rw [if_neg (by simp [ha])] at h
      obtain rfl := Except.ok.inj h
      exact ⟨rfl, ha⟩
    · rw [if_pos (by simp [ha])] at h
      exact Except.noConfusion h

/-- C4: with `assigneeId` null, `create_todos` called by a teacher fans
out to every currently registered student: with no student it fails with
a Validation error creating nothing; otherwise it appends exactly one
todo per student to the store (in student order), each carrying the
request's owner/title/description/due date/completed flag, with the
distinct assignee ids covering exactly the current students. -/
theorem C4_fanout_create (db : DB) (now : String) (oid : Nat)
    (ti de : String) (dd : Option String) (c : Bool) (ca : Option String)
    (u : User) (hu : userGet db oid = some u) (hr : u.role = .teacher)
    (hnd : usersNodup db) :
    (list_students db = [] →
      create_todos db now oid ti de dd c none ca = .error .validation) ∧
    (list_students db ≠ [] →
      ∃ (db2 : DB) (created : List Todo),
        create_todos db now oid ti de dd c none ca = .ok (db2, created) ∧
        db2.todos = db.todos ++ created ∧
        created.length = (list_students db).length ∧
        created.map (fun t => t.assignee_id) =
          (list_students db).map (fun s => some s.id) ∧
        ((list_students db).map (fun s => s.id)).Nodup ∧
        ∀ t ∈ created, t.owner_id = oid ∧ t.title = ti ∧
          t.description = de ∧ t.due_date = dd ∧ t.completed = c) := by
  have het := ensure_teacher_ok hu hr
  constructor
  · intro hempty
    rw [create_todos, het, ok_bind]
    simp [hempty]
  · intro hne
    obtain ⟨h1, h2, h3⟩ := createForStudents_spec oid ti de dd c
      (createCompletedAt now c ca) (list_students db) db
    refine ⟨_, _, ?_, h1, ?_, h2, ?_, ?_⟩
    · rw [create_todos, het, ok_bind]
      simp only []
      rw [if_neg (by simp [List.isEmpty_iff, hne])]
    · simpa using congrArg List.length h2
    · unfold usersNodup at hnd
      exact (List.Sublist.map (fun s : User => s.id)
        (List.filter_sublist db.users)).nodup hnd
    · intro t ht
      obtain ⟨f1, f2, f3, f4, f5, -⟩ := h3 t ht
      exact ⟨f1, f2, f3, f4, f5⟩

/-- C4 witness: with a teacher but zero students (`dbNoStu`), the fan-out
create fails with a Validation error. -/
theorem C4_fanout_create_witness :
    create_todos dbNoStu "2024-01-01T00:00:00" 1 "HW" "" none false none
      none = .error .validation :=
  (C4_fanout_create dbNoStu "2024-01-01T00:00:00" 1 "HW" "" none false
    none ⟨1, "Teacher", .teacher⟩ rfl rfl (by decide)).1 rfl

@[simp]
theorem map_error {α β : Type} (f : α → β) (e : Err) :
    Except.map f (.error e : Except Err α) = .error e := rfl

@[simp]
theorem map_ok {α β : Type} (f : α → β) (a : α) :
    Except.map f (.ok a : Except Err α) = .ok (f a) := rfl

theorem invDB_update (db : DB) (tid : Nat) (ti de : Option String)
    (co : Option Bool) (asg : Option (Option Nat))
    (dd ca : Option (Option String)) (hinv : invDB db)
    (hpatch : ∀ t ∈ db.todos, t.id = tid →
      invTodo (applyPatch t ti de co asg dd ca)) :
    invDB (todoUpdate db tid ti de co asg dd ca).1 := by
  intro t ht
  rw [todoUpdate_fst_todos] at ht
  obtain ⟨t0, ht0, rfl⟩ := List.mem_map.mp ht
  by_cases h0 : t0.id = tid
  · rw [if_pos h0]
    exact hpatch t0 ht0 h0
  · rw [if_neg h0]
    exact hinv t0 ht0

theorem invTodo_keepPatch (t : Todo) (ti de : Option String)
    (asg : Option (Option Nat)) (dd : Option (Option String))
    (h : invTodo t) : invTodo (applyPatch t ti de none asg dd none) := by
  simpa [invTodo, applyPatch] using h

theorem invTodo_completionPatch (t : Todo) (ti de : Option String)
    (asg : Option (Option Nat)) (dd : Option (Option String))
    (now : String) (c : Bool) :
    invTodo (applyPatch t ti de (some c) asg dd
      (some (completionTimestamp now c))) := by
  cases c <;> simp [invTodo, applyPatch, completionTimestamp]

theorem invTodo_setSame (t : Todo) (ti de : Option String)
    (asg : Option (Option Nat)) (dd : Option (Option String))
    (h : invTodo t) (c : Bool) (hc : c = t.completed) :
    invTodo (applyPatch t ti de (some c) asg dd none) := by
  subst hc
  simpa [invTodo, applyPatch] using h

theorem createCompletedAt_inv (now : String) (c : Bool)
    (ca : Option String) (h : ca = none ∨ c = true) :
    c = true ↔ createCompletedAt now c ca ≠ none := by
  rcases h with rfl | rfl
  · cases c <;> simp [createCompletedAt, completionTimestamp]
  · cases ca <;> simp [createCompletedAt, completionTimestamp]

/-- Invariant preservation for the tail of `update_todo_by_teacher`, once
the access check has passed and the assignee argument has resolved to
`asg2`: the completed-toggle branch raises before writing, the
completed-equal branch rewrites the flag with its stored value, and the
completed-absent branch leaves flag and stamp alone. -/
theorem inv_after_teacher_tail (db : DB) (now : String) (tid oid : Nat)
    (ti de : Option String) (dd : Option (Option String))
    (co : Option Bool) (a : Option (Option Nat))
    (asg2 : Option (Option Nat)) (T : Todo)
    (hnd : todosNodup db) (hinv : invDB db) (hT : todoGet db tid = some T)
    (heq : update_todo_by_teacher db tid oid ti de dd co a =
      (if (match co with
           | some c => c != T.completed
           | none => false) = true then .error .nameError
       else .ok (todoUpdate db tid ti de co asg2 dd none))) :
    invDB (dbAfter db now (.teacherUpdate tid oid ti de dd co a)) := by
  rcases co with _ | c
  · rw [if_neg (by simp)] at heq
    have hrun : runOp db now (.teacherUpdate tid oid ti de dd none a)
        = .ok (todoUpdate db tid ti de none asg2 dd none).1 := by
      simp [runOp, heq]
    simp only [dbAfter, hrun]
    exact invDB_update db tid ti de none asg2 dd none hinv
      (fun t ht h0 => invTodo_keepPatch t _ _ _ _ (hinv t ht))
  · by_cases hc : c = T.completed
    · rw [if_neg (by simp [hc])] at heq
      have hrun : runOp db now (.teacherUpdate tid oid ti de dd (some c) a)
          = .ok (todoUpdate db tid ti de (some c) asg2 dd none).1 := by
        simp [runOp, heq]
      simp only [dbAfter, hrun]
      refine invDB_update db tid ti de (some c) asg2 dd none hinv
        (fun t ht h0 => ?_)
      have ht0 : t = T := find?_nodup_unique hnd hT t ht h0
      exact invTodo_setSame t ti de asg2 dd (hinv t ht) c (by rw [hc, ht0])
    · rw [if_pos (by simp [hc])] at heq
      have hrun : runOp db now (.teacherUpdate tid oid ti de dd (some c) a)
          = .error .nameError := by
        simp [runOp, heq]
      simpa [dbAfter, hrun] using hinv

/-- C2: after every create or update operation of the Todo Service
(`create_todos`, `assign_todo`, `update_todo_by_teacher`,
`update_todo_by_student`), every todo in the store satisfies
`completed=true ⇔ completed_at≠null`, provided the explicit
`completed_at` argument of `create_todos` (a backdoor used only by the
seeder) is consistent with the `completed` flag. -/
theorem C2_completion_invariant (db : DB) (now : String) (op : Op)
    (hnd : todosNodup db) (hinv : invDB db) (hca : caConsistent op) :
    invDB (dbAfter db now op) := by
  cases op with
  | create oid ti de dd c a ca =>
    have hca0 : ca = none ∨ c = true := hca
    clear hca
    cases het : ensure_teacher db oid with
    | error e =>
      have hrun : runOp db now (.create oid ti de dd c a ca) = .error e := by
        simp [runOp, create_todos, het]
      simpa [dbAfter, hrun] using hinv
    | ok u =>
      rcases a with _ | sid
      · by_cases hst : list_students db = []
        · have hrun : runOp db now (.create oid ti de dd c none ca) =
              .error .validation := by
            simp [runOp, create_todos, het, hst]
          simpa [dbAfter, hrun] using hinv
        · have hok : create_todos db now oid ti de dd c none ca =
              .ok (createForStudents oid ti de dd c
                (createCompletedAt now c ca) db (list_students db)) := by
            rw [create_todos, het, ok_bind]
            simp only []
            rw [if_neg (by simp [List.isEmpty_iff, hst])]
          have hrun : runOp db now (.create oid ti de dd c none ca) =
              .ok (createForStudents oid ti de dd c
                (createCompletedAt now c ca) db (list_students db)).1 := by
            simp [runOp, hok]
          obtain ⟨h1, -, h3⟩ := createForStudents_spec oid ti de dd c
            (createCompletedAt now c ca) (list_students db) db
          simp only [dbAfter, hrun]
          intro t ht
          rw [h1] at ht
          rcases List.mem_append.mp ht with h | h
          · exact hinv t h
          · obtain ⟨-, -, -, -, hc5, hc6⟩ := h3 t h
            unfold invTodo
            rw [hc5, hc6]
            exact createCompletedAt_inv now c ca hca0
      · cases hes : ensure_student db sid with
        | error e =>
          have hrun : runOp db now (.create oid ti de dd c (some sid) ca) =
              .error e := by
            simp [runOp, create_todos, het, hes]
          simpa [dbAfter, hrun] using hinv
        | ok st =>
          have hok : create_todos db now oid ti de dd c (some sid) ca =
              .ok ((todoCreate db ti de c oid (some st.id) dd
                  (createCompletedAt now c ca)).1,
                [(todoCreate db ti de c oid (some st.id) dd
                  (createCompletedAt now c ca)).2]) := by
            simp [create_todos, het, hes]
          have hrun : runOp db now (.create oid ti de dd c (some sid) ca) =
              .ok (todoCreate db ti de c oid (some st.id) dd
                (createCompletedAt now c ca)).1 := by
            simp [runOp, hok]
          simp only [dbAfter, hrun]
          intro t ht
          have ht2 : t ∈ db.todos ∨
              t = (todoCreate db ti de c oid (some st.id) dd
                (createCompletedAt now c ca)).2 := by
            simpa [todoCreate] using ht
          rcases ht2 with h | rfl
          · exact hinv t h
          · exact createCompletedAt_inv now c ca hca0
  | assign tid oid sid =>
    cases hv : verify_teacher_access db tid oid with
    | error e =>
      have hrun : runOp db now (.assign tid oid sid) = .error e := by
        simp [runOp, assign_todo, hv]
      simpa [dbAfter, hrun] using hinv
    | ok T =>
      cases hes : ensure_student db sid with
      | error e =>
        have hrun : runOp db now (.assign tid oid sid) = .error e := by
          simp [runOp, assign_todo, hv, hes]
        simpa [dbAfter, hrun] using hinv
      | ok st =>
        have hok : assign_todo db tid oid sid =
            .ok (todoUpdate db tid none none none (some (some st.id)) none
              none) := by
          rw [assign_todo, hv, ok_bind, hes, ok_bind]
        have hrun : runOp db now (.assign tid oid sid) =
            .ok (todoUpdate db tid none none none (some (some st.id)) none
              none).1 := by
          simp [runOp, hok]
        simp only [dbAfter, hrun]
        exact invDB_update db tid none none none (some (some st.id)) none
          none hinv (fun t ht h0 => invTodo_keepPatch t _ _ _ _ (hinv t ht))
  | teacherUpdate tid oid ti de dd co a =>
    clear hca
    cases hv : verify_teacher_access db tid oid with
    | error e =>
      have hrun : runOp db now (.teacherUpdate tid oid ti de dd co a) =
          .error e := by
        simp [runOp, update_todo_by_teacher, hv]
      simpa [dbAfter, hrun] using hinv
    | ok T =>
      obtain ⟨hT, -⟩ := verify_teacher_access_ok_inv hv
      rcases a with _ | a0
      · exact inv_after_teacher_tail db now tid oid ti de dd co none none T
          hnd hinv hT (by rw [update_todo_by_teacher, hv]; rfl)
      · rcases a0 with _ | sid
        · exact inv_after_teacher_tail db now tid oid ti de dd co
            (some none) (some none) T hnd hinv hT
            (by rw [update_todo_by_teacher, hv]; rfl)
        · cases hes : ensure_student db sid with
          | error e =>
            have hrun : runOp db now
                (.teacherUpdate tid oid ti de dd co (some (some sid)))
                = .error e := by
              simp [runOp, update_todo_by_teacher, hv, hes]
            simpa [dbAfter, hrun] using hinv
          | ok st =>
            exact inv_after_teacher_tail db now tid oid ti de dd co
              (some (some sid)) (some (some st.id)) T hnd hinv hT
              (by rw [update_todo_by_teacher, hv, ok_bind]
                  simp [hes])
  | studentUpdate tid sid c =>
    cases hv : verify_student_access db tid sid with
    | error e =>
      have hrun : runOp db now (.studentUpdate tid sid c) = .error e := by
        simp [runOp, update_todo_by_student, hv]
      simpa [dbAfter, hrun] using hinv
    | ok T =>
      have hok : update_todo_by_student db now tid sid c =
          .ok (todoUpdate db tid none none (some c) none none
            (some (completionTimestamp now c))) := by
        rw [update_todo_by_student, hv, ok_bind]
      have hrun : runOp db now (.studentUpdate tid sid c) =
          .ok (todoUpdate db tid none none (some c) none none
            (some (completionTimestamp now c))).1 := by
        simp [runOp, hok]
      simp only [dbAfter, hrun]
      exact invDB_update db tid none none (some c) none none
        (some (completionTimestamp now c)) hinv
        (fun t ht h0 => invTodo_completionPatch t _ _ _ _ now c)

/-- C2 counterexample: `create_todos` accepts an explicit `completed_at`
argument (`services.py:92`, used by the seeder) which is stored verbatim;
passing a non-null stamp together with `completed=false` creates a todo
with `completed=false` and `completed_at≠null`, so the invariant does not
hold unconditionally after every create operation. -/
theorem C2_backdoor_breaks_invariant :
    invDB dbEx ∧
    ¬ invDB (dbAfter dbEx "2024-01-01T00:00:00"
      (.create 1 "HW2" "" none false (some 2)
        (some "2020-01-01T00:00:00"))) := by
  constructor
  · decide
  · decide

/-- C2 witness: on `dbEx` (which satisfies the invariant), a student
completion update preserves it. -/
theorem C2_completion_invariant_witness :
    invDB (dbAfter dbEx "2024-01-01T00:00:00" (.studentUpdate 1 2 true)) :=
  C2_completion_invariant dbEx "2024-01-01T00:00:00"
    (.studentUpdate 1 2 true) (by decide) (by decide) trivial

end Vib3
